import Mathlib

/-!
Verification development for the Ollama terminal chat client
(single source file src/main.cpp).

The development shallowly embeds the conversation-session engine of the
program: the message history owned by class OllamaAssistant, the wire
payload built in sendMessage, the streaming and non-streaming response
decoders, the model-list decoder of getAvailableModels, and the
connection check.  Network effects are made explicit: every operation
that performs an HTTP exchange in the C++ code takes the outcome of that
exchange (a curl error or an HTTP status plus body) as an argument.
Exceptions thrown by the C++ code are modelled with Except.

The program parses JSON with the nlohmann json library.  That library is
an external dependency, so its parser is modelled here as a concrete
recursive-descent parser over the character list of the input, faithful
to the observable behaviour the program relies on: strict whole-input
parsing, rejection of malformed documents, object key lookup, and the
distinction between string and non-string field values (extracting a
non-string value into a std::string throws a json exception).  Object
members are kept in insertion order here; the library stores them in a
sorted map, but no property below observes member order, only key
lookup.  JSON numbers are kept as their source lexeme, since no property
below observes numeric values.
-/

namespace OllamaChat

/-- Model of a JSON value as produced by the json library used in
src/main.cpp. -/
inductive Json where
  | null : Json
  | bool (b : Bool) : Json
  | num (raw : String) : Json
  | str (s : String) : Json
  | arr (elems : List Json) : Json
  | obj (members : List (String × Json)) : Json
deriving Repr

/-- Opening brace character, written via its code point to keep brace
characters out of literals. -/
def lbrace : Char := Char.ofNat 123

/-- Closing brace character. -/
def rbrace : Char := Char.ofNat 125

/-- Whitespace accepted between JSON tokens: space, tab, newline,
carriage return. -/
def isWsChar (c : Char) : Bool :=
  c = ' ' || c = '\t' || c = '\n' || c = '\r'

/-- Drop leading JSON whitespace. -/
def skipWs (cs : List Char) : List Char := cs.dropWhile isWsChar

/-- Decimal digit test. -/
def isDigitChar (c : Char) : Bool := '0' ≤ c && c ≤ '9'

/-- Value of one hexadecimal digit. -/
def hexVal (c : Char) : Option Nat :=
  if '0' ≤ c && c ≤ '9' then some (c.toNat - 48)
  else if 'a' ≤ c && c ≤ 'f' then some (c.toNat - 87)
  else if 'A' ≤ c && c ≤ 'F' then some (c.toNat - 55)
  else none

/-- Read four hexadecimal digits, as in a \u escape. -/
def parseHex4 : List Char → Option (Nat × List Char)
  | c1 :: c2 :: c3 :: c4 :: rest =>
    match hexVal c1, hexVal c2, hexVal c3, hexVal c4 with
    | some h1, some h2, some h3, some h4 =>
      some (((h1 * 16 + h2) * 16 + h3) * 16 + h4, rest)
    | _, _, _, _ => none
  | _ => none

/-- Read the body of a JSON string after the opening quote, handling the
escape sequences of the json library, rejecting unescaped control
characters and lone surrogates. -/
def parseStringBody (fuel : Nat) (cs : List Char) (acc : List Char) :
    Option (String × List Char) :=
  match fuel with
  | 0 => none
  | fuel + 1 =>
    match cs with
    | [] => none
    | c :: rest =>
      if c = '"' then some (String.mk acc.reverse, rest)
      else if c = '\\' then
        match rest with
        | [] => none
        | e :: rest2 =>
          if e = '"' ∨ e = '\\' ∨ e = '/' then parseStringBody fuel rest2 (e :: acc)
          else if e = 'b' then parseStringBody fuel rest2 (Char.ofNat 8 :: acc)
          else if e = 'f' then parseStringBody fuel rest2 (Char.ofNat 12 :: acc)
          else if e = 'n' then parseStringBody fuel rest2 ('\n' :: acc)
          else if e = 'r' then parseStringBody fuel rest2 ('\r' :: acc)
          else if e = 't' then parseStringBody fuel rest2 ('\t' :: acc)
          else if e = 'u' then
            match parseHex4 rest2 with
            | none => none
            | some (n, rest3) =>
              if 0xD800 ≤ n ∧ n ≤ 0xDBFF then
                match rest3 with
                | '\\' :: 'u' :: rest4 =>
                  match parseHex4 rest4 with
                  | some (lo, rest5) =>
                    if 0xDC00 ≤ lo ∧ lo ≤ 0xDFFF then
                      parseStringBody fuel rest5
                        (Char.ofNat (0x10000 + (n - 0xD800) * 0x400 + (lo - 0xDC00)) :: acc)
                    else none
                  | none => none
                | _ => none
              else if 0xDC00 ≤ n ∧ n ≤ 0xDFFF then none
              else parseStringBody fuel rest3 (Char.ofNat n :: acc)
          else none
      else if c.toNat < 32 then none
      else parseStringBody fuel rest (c :: acc)

/-- Split a character list into its leading digit span and the rest. -/
def digitSpan (cs : List Char) : List Char × List Char :=
  (cs.takeWhile isDigitChar, cs.dropWhile isDigitChar)

/-- Read an optional fraction part: a dot must be followed by at least
one digit, otherwise the whole number is malformed. -/
def parseFracPart (cs : List Char) : Option (List Char × List Char) :=
  match cs with
  | '.' :: cs1 =>
    let (ds, cs2) := digitSpan cs1
    if ds = [] then none else some ('.' :: ds, cs2)
  | _ => some ([], cs)

/-- Read an optional exponent part: e or E, an optional sign, and at
least one digit. -/
def parseExpPart (cs : List Char) : Option (List Char × List Char) :=
  match cs with
  | [] => some ([], [])
  | c :: cs1 =>
    if c = 'e' ∨ c = 'E' then
      let (sgn, cs2) :=
        match cs1 with
        | s :: rest => if s = '+' ∨ s = '-' then ([s], rest) else (([] : List Char), cs1)
        | [] => (([] : List Char), cs1)
      let (ds, cs3) := digitSpan cs2
      if ds = [] then none else some (c :: (sgn ++ ds), cs3)
    else some ([], c :: cs1)

/-- Read a JSON number starting at the current position, keeping its
lexeme.  A leading zero may not be followed by further digits of the
integer part, matching the JSON grammar the library enforces. -/
def parseNumber (cs : List Char) : Option (Json × List Char) :=
  let (sign, cs1) :=
    match cs with
    | '-' :: rest => ((['-'] : List Char), rest)
    | _ => (([] : List Char), cs)
  match cs1 with
  | [] => none
  | c :: rest =>
    if ¬ isDigitChar c then none
    else
      let (intPart, cs2) :=
        if c = '0' then (([c] : List Char), rest)
        else digitSpan cs1
      match parseFracPart cs2 with
      | none => none
      | some (fracPart, cs3) =>
        match parseExpPart cs3 with
        | none => none
        | some (expPart, cs4) =>
          some (.num (String.mk (sign ++ intPart ++ fracPart ++ expPart)), cs4)

/-- Insert a member into an object, overwriting the value of an existing
key, as assignment through operator brackets does in the library. -/
def objInsert (members : List (String × Json)) (k : String) (v : Json) :
    List (String × Json) :=
  match members with
  | [] => [(k, v)]
  | (k1, v1) :: rest =>
    if k1 = k then (k1, v) :: rest else (k1, v1) :: objInsert rest k v

mutual

/-- Read one JSON value.  Fuel bounds the recursion depth; the top-level
entry point supplies enough fuel for any input of the given length. -/
def parseValue (fuel : Nat) (cs : List Char) : Option (Json × List Char) :=
  match fuel with
  | 0 => none
  | fuel + 1 =>
    match skipWs cs with
    | [] => none
    | c :: rest =>
      if c = '"' then
        match parseStringBody (rest.length + 1) rest [] with
        | some (s, rest2) => some (.str s, rest2)
        | none => none
      else if c = lbrace then parseObjBody fuel rest []
      else if c = '[' then parseArrBody fuel rest []
      else if c = '-' ∨ isDigitChar c then parseNumber (c :: rest)
      else
        match c :: rest with
        | 'n' :: 'u' :: 'l' :: 'l' :: r => some (.null, r)
        | 't' :: 'r' :: 'u' :: 'e' :: r => some (.bool true, r)
        | 'f' :: 'a' :: 'l' :: 's' :: 'e' :: r => some (.bool false, r)
        | _ => none

/-- Read the members of an object after the opening brace. -/
def parseObjBody (fuel : Nat) (cs : List Char) (acc : List (String × Json)) :
    Option (Json × List Char) :=
  match fuel with
  | 0 => none
  | fuel + 1 =>
    match skipWs cs with
    | [] => none
    | c :: rest =>
      if acc.isEmpty ∧ c = rbrace then some (.obj [], rest)
      else if c = '"' then
        match parseStringBody (rest.length + 1) rest [] with
        | none => none
        | some (k, r1) =>
          match skipWs r1 with
          | ':' :: r2 =>
            match parseValue fuel r2 with
            | none => none
            | some (v, r3) =>
              let acc2 := objInsert acc k v
              match skipWs r3 with
              | ',' :: r4 => parseObjBody fuel r4 acc2
              | d :: r4 => if d = rbrace then some (.obj acc2, r4) else none
              | [] => none
          | _ => none
      else none

/-- Read the elements of an array after the opening bracket. -/
def parseArrBody (fuel : Nat) (cs : List Char) (acc : List Json) :
    Option (Json × List Char) :=
  match fuel with
  | 0 => none
  | fuel + 1 =>
    match skipWs cs with
    | [] => none
    | c :: rest =>
      if acc.isEmpty ∧ c = ']' then some (.arr [], rest)
      else
        match parseValue fuel (c :: rest) with
        | none => none
        | some (v, r1) =>
          match skipWs r1 with
          | ',' :: r2 => parseArrBody fuel r2 (acc ++ [v])
          | ']' :: r2 => some (.arr (acc ++ [v]), r2)
          | _ => none

end

/-- Parse a complete JSON document, as json parse does in the library:
the whole input must be consumed apart from trailing whitespace. -/
def Json.parse (s : String) : Option Json :=
  match parseValue (2 * s.data.length + 4) s.data with
  | none => none
  | some (j, rest) => if skipWs rest = [] then some j else none

/-- Key lookup on an object; none on every non-object value, matching
the contains test of the library, which is false for non-objects. -/
def Json.getField : Json → String → Option Json
  | .obj members, k => (members.find? (fun m => m.1 = k)).map (·.2)
  | _, _ => none

/-- Values visited by a range-based for over a json value: the elements
of an array, the member values of an object, nothing for null, the
value itself otherwise. -/
def Json.iterElems : Json → List Json
  | .arr elems => elems
  | .obj members => members.map (·.2)
  | .null => []
  | v => [v]

/-- A chat message as stored in conversation_history: a json object with
a role and a content field, both strings. -/
structure Message where
  role : String
  content : String
deriving DecidableEq, Repr

/-- The system prompt installed by the constructor of OllamaAssistant
and restored by clearConversation. -/
def defaultSystemPrompt : String :=
  "You are a helpful terminal assistant. Provide clear, concise responses focused on programming and technical help."

/-- The fixed system message at index 0 of the history. -/
def systemMessage : Message :=
  { role := "system", content := defaultSystemPrompt }

/-- The history as initialized by the constructor: exactly the system
message. -/
def initialHistory : List Message := [systemMessage]

/-- The user message pushed by sendMessage before the request. -/
def userMessage (text : String) : Message :=
  { role := "user", content := text }

/-- The assistant message pushed by sendMessage after a successful
exchange. -/
def assistantMessage (text : String) : Message :=
  { role := "assistant", content := text }

/-- State of an OllamaAssistant object: the api url, the active model
name, the conversation history and the streaming flag.  The curl handle
carries no observable state of its own and is left out. -/
structure AssistantState where
  api_url : String
  model_name : String
  conversation_history : List Message
  streaming_enabled : Bool
deriving DecidableEq, Repr

/-- The constructor of OllamaAssistant with a model argument. -/
def mkAssistant (model : String) : AssistantState :=
  { api_url := "http://localhost:11434/api/chat"
    model_name := model
    conversation_history := initialHistory
    streaming_enabled := true }

/-- Method setStreamingEnabled. -/
def setStreamingEnabled (st : AssistantState) (enabled : Bool) : AssistantState :=
  { st with streaming_enabled := enabled }

/-- Method setModel: assigns model_name and prints a notice. -/
def setModel (st : AssistantState) (model : String) : AssistantState :=
  { st with model_name := model }

/-- Method clearConversation: clears the history and pushes the system
message again. -/
def clearConversation (st : AssistantState) : AssistantState :=
  { st with conversation_history := initialHistory }

/-- Method getConversationLength: size of the history minus one. -/
def getConversationLength (st : AssistantState) : Nat :=
  st.conversation_history.length - 1

/-- Outcome of one curl_easy_perform call: a curl-level error, or an
HTTP response with its status code and accumulated body. -/
inductive CurlOutcome where
  | curlError (reason : String) : CurlOutcome
  | httpResponse (code : Int) (body : String) : CurlOutcome
deriving DecidableEq, Repr

/-- The exceptions sendMessage can throw, by the runtime_error messages
in the source: a transport failure from curl, a non-200 response
carrying status and body, or a json decode failure. -/
inductive ChatError where
  | transportError (reason : String) : ChatError
  | apiError (code : Int) (body : String) : ChatError
  | decodeError : ChatError
deriving DecidableEq, Repr

/-- Serialization of a message into the wire payload. -/
def msgToJson (m : Message) : Json :=
  .obj [("role", .str m.role), ("content", .str m.content)]

/-- The request body built in sendMessage: model, messages and stream
fields, with messages the full history in order. -/
def toWirePayload (history : List Message) (model : String) (streaming : Bool) : Json :=
  .obj [("model", .str model),
        ("messages", .arr (history.map msgToJson)),
        ("stream", .bool streaming)]

/-- The payload a call to sendMessage sends: built after the user
message is pushed, from the current model name and streaming flag. -/
def chatRequest (st : AssistantState) (message : String) : Json :=
  toWirePayload (st.conversation_history ++ [userMessage message])
    st.model_name st.streaming_enabled

/-- Lines produced by getline over a string stream: split at newline,
the delimiter consumed, the final line delivered even without a closing
newline, no line at all for the empty input. -/
def getLines : List Char → List (List Char)
  | [] => []
  | c :: cs =>
    if c = '\n' then [] :: getLines cs
    else
      match getLines cs with
      | [] => [[c]]
      | l :: ls => (c :: l) :: ls

/-- Body split into lines the way the streaming decoder reads them. -/
def splitLines (s : String) : List String :=
  (getLines s.data).map fun l => String.mk l

/-- Strip a leading data prelude from a streaming line, as the check
with rfind at position 0 followed by substr of six characters does. -/
def stripData (l : String) : String :=
  match l.data with
  | 'd' :: 'a' :: 't' :: 'a' :: ':' :: ' ' :: rest => String.mk rest
  | _ => l

/-- The content field inside the message field of a chunk, guarded the
way the source guards it with contains on both levels. -/
def contentField (j : Json) : Option Json :=
  match j.getField "message" with
  | some m => m.getField "content"
  | none => none

/-- The streaming while-loop of sendMessage: walks the lines carrying
the reply accumulated so far; strips the data prelude; skips empty and
DONE lines; skips lines that fail to parse or whose content is not a
string, as the inner catch does; appends string content. -/
def decodeStreamLoop : List String → String → String
  | [], acc => acc
  | l :: ls, acc =>
    let l1 := stripData l
    if l1 = "" ∨ l1 = "[DONE]" then decodeStreamLoop ls acc
    else
      match Json.parse l1 with
      | none => decodeStreamLoop ls acc
      | some j =>
        match contentField j with
        | some (.str s) => decodeStreamLoop ls (acc ++ s)
        | _ => decodeStreamLoop ls acc

/-- The streaming branch of the response decoding in sendMessage. -/
def decodeStreaming (body : String) : String :=
  decodeStreamLoop (splitLines body) ""

/-- Contribution of one line to the streaming reply, phrased per line:
strip the prelude, skip empty and DONE lines, parse, take the content
field when it is a string. -/
def lineContribution (l : String) : String :=
  let l1 := stripData l
  if l1 = "" ∨ l1 = "[DONE]" then ""
  else
    match Json.parse l1 with
    | none => ""
    | some j =>
      match contentField j with
      | some (.str s) => s
      | _ => ""

/-- Concatenation of a list of strings in order. -/
def concatAll : List String → String
  | [] => ""
  | s :: rest => s ++ concatAll rest

/-- The non-streaming branch of the response decoding in sendMessage:
parse the whole body; a parse failure is a json exception reaching the
outer catch, hence a decode error; a missing content field leaves the
reply empty; a non-string content value throws on extraction into a
std::string and also reaches the outer catch. -/
def decodeNonStreaming (body : String) : Except ChatError String :=
  match Json.parse body with
  | none => .error .decodeError
  | some j =>
    match contentField j with
    | none => .ok ""
    | some (.str s) => .ok s
    | some _ => .error .decodeError

/-- Method sendMessage, with the network exchange made explicit.  The
user message is pushed first; a curl failure or a non-200 status then
throws with the user message retained; otherwise the body is decoded
according to the streaming flag and, on success, the assistant reply is
pushed and returned. -/
def sendMessage (st : AssistantState) (message : String) (net : CurlOutcome) :
    Except ChatError String × AssistantState :=
  let st1 : AssistantState :=
    { st with conversation_history := st.conversation_history ++ [userMessage message] }
  match net with
  | .curlError reason => (.error (.transportError reason), st1)
  | .httpResponse code body =>
    if code ≠ 200 then (.error (.apiError code body), st1)
    else if st1.streaming_enabled then
      let reply := decodeStreaming body
      (.ok reply,
       { st1 with conversation_history := st1.conversation_history ++ [assistantMessage reply] })
    else
      match decodeNonStreaming body with
      | .error e => (.error e, st1)
      | .ok reply =>
        (.ok reply,
         { st1 with conversation_history := st1.conversation_history ++ [assistantMessage reply] })

/-- Names collected by the loop of getAvailableModels: entries without
a name key are skipped; a non-string name value throws a json exception
on push_back, and the catch outside the loop returns the names gathered
so far. -/
def collectModelNames : List Json → List String
  | [] => []
  | entry :: rest =>
    match entry.getField "name" with
    | none => collectModelNames rest
    | some (.str s) => s :: collectModelNames rest
    | some _ => []

/-- Method getAvailableModels, with the network exchange explicit: on a
curl failure or any parse failure the result degrades to the empty
list; otherwise the name fields of the entries under the models key are
collected. -/
def getAvailableModels (net : CurlOutcome) : List String :=
  match net with
  | .curlError _ => []
  | .httpResponse _ body =>
    match Json.parse body with
    | none => []
    | some j =>
      match j.getField "models" with
      | none => []
      | some models => collectModelNames models.iterElems

/-- Result code of curl_easy_perform: CURLE_OK or a failure with a
reason, such as a refused connection to an unreachable host. -/
inductive CurlCode where
  | curleOk : CurlCode
  | curleFail (reason : String) : CurlCode
deriving DecidableEq, Repr

/-- Outcome of the health check in checkOllamaConnection: the temporary
curl handle may fail to allocate, otherwise curl_easy_perform returns a
code. -/
inductive ConnAttempt where
  | allocFailed : ConnAttempt
  | performed (res : CurlCode) : ConnAttempt
deriving DecidableEq, Repr

/-- Method checkOllamaConnection: false when the handle cannot be
allocated, otherwise true exactly when curl_easy_perform returned
CURLE_OK.  Total: no outcome raises. -/
def checkOllamaConnection : ConnAttempt → Bool
  | .allocFailed => false
  | .performed .curleOk => true
  | .performed (.curleFail _) => false

/-- One append or reset operation on the session history. -/
inductive SessionOp where
  | appendUser (text : String) : SessionOp
  | appendAssistant (text : String) : SessionOp
  | reset : SessionOp
deriving DecidableEq, Repr

/-- Effect of one operation on the history: sendMessage pushes the user
and assistant messages at the end, clearConversation reinstalls the
initial history. -/
def applyOp (h : List Message) : SessionOp → List Message
  | .appendUser text => h ++ [userMessage text]
  | .appendAssistant text => h ++ [assistantMessage text]
  | .reset => initialHistory

/-- History reached from construction by a sequence of operations. -/
def runOps (ops : List SessionOp) : List Message :=
  ops.foldl applyOp initialHistory

/-- Count of messages appended since the last reset, or since
construction when no reset occurred. -/
def turnStep (n : Nat) : SessionOp → Nat
  | .reset => 0
  | _ => n + 1

/-- Number of user and assistant messages a sequence of operations
leaves in the history. -/
def appendedTurns (ops : List SessionOp) : Nat :=
  ops.foldl turnStep 0

/-- The loop body of TerminalInterface run for a chat turn: sendMessage
is called inside a try block whose catch prints the error, and the
while-true loop continues on both paths.  The boolean records that the
loop is not left. -/
def chatTurnStep (st : AssistantState) (input : String) (net : CurlOutcome) :
    AssistantState × Bool :=
  match sendMessage st input net with
  | (_, st2) => (st2, true)

/-- Well-formedness of a history: the first message is the system
message and no later message carries the system role. -/
def historyWf (h : List Message) : Prop :=
  h.head? = some systemMessage ∧ ∀ m ∈ h.tail, m.role ≠ "system"

/-- The name a model-list entry contributes when its name field holds a
string. -/
def nameOfEntry (j : Json) : Option String :=
  match j.getField "name" with
  | some (.str s) => some s
  | _ => none

/-! Helper lemmas. -/

theorem concatAll_append (xs ys : List String) :
    concatAll (xs ++ ys) = concatAll xs ++ concatAll ys := by
  induction xs with
  | nil => simp [concatAll, String.empty_append]
  | cons s xs ih => simp [concatAll, ih, String.append_assoc]

theorem decodeStreamLoop_cons (l : String) (ls : List String) (acc : String) :
    decodeStreamLoop (l :: ls) acc = decodeStreamLoop ls (acc ++ lineContribution l) := by
  simp only [decodeStreamLoop, lineContribution]
  by_cases h1 : stripData l = "" ∨ stripData l = "[DONE]"
  · rw [if_pos h1, if_pos h1, String.append_empty]
  · rw [if_neg h1, if_neg h1]
    cases hp : Json.parse (stripData l) with
    | none => simp [String.append_empty]
    | some j =>
      cases hcf : contentField j with
      | none => simp [hcf, String.append_empty]
      | some cj => cases cj <;> simp [hcf, String.append_empty]

theorem decodeStreamLoop_eq (ls : List String) (acc : String) :
    decodeStreamLoop ls acc = acc ++ concatAll (ls.map lineContribution) := by
  induction ls generalizing acc with
  | nil => simp [decodeStreamLoop, concatAll, String.append_empty]
  | cons l ls ih =>
    rw [decodeStreamLoop_cons, ih, List.map_cons]
    show acc ++ lineContribution l ++ concatAll (ls.map lineContribution)
      = acc ++ (lineContribution l ++ concatAll (ls.map lineContribution))
    rw [String.append_assoc]

theorem historyWf_initial : historyWf initialHistory := by
  refine ⟨rfl, ?_⟩
  intro m hm
  simp [initialHistory] at hm

theorem historyWf_append (h : List Message) (m : Message) (hrole : m.role ≠ "system")
    (hwf : historyWf h) : historyWf (h ++ [m]) := by
  obtain ⟨h0, htail⟩ := hwf
  cases h with
  | nil => simp at h0
  | cons a t =>
    have ha : a = systemMessage := by
      simp only [List.head?_cons, Option.some.injEq] at h0
      exact h0
    refine ⟨by simp [ha], ?_⟩
    intro x hx
    simp only [List.cons_append, List.tail_cons] at hx
    rcases List.mem_append.mp hx with hmem | hmem
    · exact htail x (by simpa using hmem)
    · rw [List.mem_singleton.mp hmem]
      exact hrole

theorem historyWf_applyOp (h : List Message) (op : SessionOp) (hwf : historyWf h) :
    historyWf (applyOp h op) := by
  cases op with
  | reset => exact historyWf_initial
  | appendUser text =>
    refine historyWf_append h (userMessage text) ?_ hwf
    show ("user" : String) ≠ "system"
    decide
  | appendAssistant text =>
    refine historyWf_append h (assistantMessage text) ?_ hwf
    show ("assistant" : String) ≠ "system"
    decide

theorem historyWf_runOps_from (ops : List SessionOp) (h : List Message)
    (hwf : historyWf h) : historyWf (ops.foldl applyOp h) := by
  induction ops generalizing h with
  | nil => exact hwf
  | cons op ops ih => exact ih _ (historyWf_applyOp h op hwf)

theorem length_foldl_applyOp (ops : List SessionOp) (h : List Message) (n : Nat)
    (hn : h.length = n + 1) :
    (ops.foldl applyOp h).length = (ops.foldl turnStep n) + 1 := by
  induction ops generalizing h n with
  | nil => simpa using hn
  | cons op ops ih =>
    cases op with
    | appendUser text =>
      exact ih (h ++ [userMessage text]) (n + 1) (by simp [hn])
    | appendAssistant text =>
      exact ih (h ++ [assistantMessage text]) (n + 1) (by simp [hn])
    | reset =>
      exact ih initialHistory 0 (by simp [initialHistory])

theorem collectModelNames_eq (entries : List Json)
    (hstr : ∀ e ∈ entries, ∀ v, e.getField "name" = some v → ∃ s, v = Json.str s) :
    collectModelNames entries = entries.filterMap nameOfEntry := by
  induction entries with
  | nil => rfl
  | cons e rest ih =>
    have hrest : ∀ e1 ∈ rest, ∀ v, e1.getField "name" = some v → ∃ s, v = Json.str s :=
      fun e1 h1 v hv => hstr e1 (List.mem_cons_of_mem e h1) v hv
    cases hn : e.getField "name" with
    | none =>
      simp [collectModelNames, nameOfEntry, hn, ih hrest]
    | some v =>
      obtain ⟨s, rfl⟩ := hstr e (List.mem_cons_self e rest) v hn
      simp [collectModelNames, nameOfEntry, hn, ih hrest]

/-! Claim theorems. -/

/-- C1: starting from construction, any sequence of appendUser,
appendAssistant and reset operations leaves the system message, whose
content is the fixed default instruction text, at index 0 of the
history; no other message of the history ever carries the system role;
and reset reinitializes the history to exactly the single system
message. -/
theorem claim_C1 (ops : List SessionOp) :
    (runOps ops).head? = some systemMessage ∧
    systemMessage = { role := "system", content := defaultSystemPrompt } ∧
    (∀ m ∈ (runOps ops).tail, m.role ≠ "system") ∧
    (∀ h, applyOp h SessionOp.reset = [systemMessage]) ∧
    (∀ st, (clearConversation st).conversation_history = [systemMessage]) ∧
    (∀ model, (mkAssistant model).conversation_history = [systemMessage]) := by
  have hwf := historyWf_runOps_from ops initialHistory historyWf_initial
  exact ⟨hwf.1, rfl, hwf.2, fun h => rfl, fun st => rfl, fun model => rfl⟩

/-- Witness for C1 at a concrete operation sequence. -/
theorem claim_C1_witness :
    (runOps [SessionOp.appendUser "hello", SessionOp.appendAssistant "hi back",
             SessionOp.reset, SessionOp.appendUser "again"]).head? = some systemMessage ∧
    runOps [SessionOp.appendUser "hello", SessionOp.appendAssistant "hi back",
            SessionOp.reset, SessionOp.appendUser "again"]
      = [systemMessage, userMessage "again"] :=
  ⟨(claim_C1 [SessionOp.appendUser "hello", SessionOp.appendAssistant "hi back",
              SessionOp.reset, SessionOp.appendUser "again"]).1, rfl⟩

/-- C7: checkOllamaConnection is a total boolean function of the
outcome of the health request: true exactly when curl_easy_perform
reports success, and false, not an exception, on any failure,
including an unreachable host and a failed handle allocation. -/
theorem claim_C7 (a : ConnAttempt) :
    (checkOllamaConnection a = true ↔ a = ConnAttempt.performed CurlCode.curleOk) ∧
    (∀ reason,
      checkOllamaConnection (ConnAttempt.performed (CurlCode.curleFail reason)) = false) ∧
    checkOllamaConnection ConnAttempt.allocFailed = false := by
  refine ⟨⟨?_, ?_⟩, fun reason => rfl, rfl⟩
  · intro hb
    cases a with
    | allocFailed => simp [checkOllamaConnection] at hb
    | performed res =>
      cases res with
      | curleOk => rfl
      | curleFail reason => simp [checkOllamaConnection] at hb
  · intro ha
    subst ha
    rfl

/-- Witness for C7: an unreachable host yields false and a successful
request yields true. -/
theorem claim_C7_witness :
    checkOllamaConnection (ConnAttempt.performed (CurlCode.curleFail "connection refused"))
      = false ∧
    checkOllamaConnection (ConnAttempt.performed CurlCode.curleOk) = true :=
  ⟨(claim_C7 (ConnAttempt.performed (CurlCode.curleFail "connection refused"))).2.1
      "connection refused",
   (claim_C7 (ConnAttempt.performed CurlCode.curleOk)).1.mpr rfl⟩

/-- C8: getConversationLength reports the history size minus one, which
equals the number of user and assistant messages appended since the
last reset, and is zero right after clearConversation. -/
theorem claim_C8 :
    (∀ st, getConversationLength st = st.conversation_history.length - 1) ∧
    (∀ ops st, st.conversation_history = runOps ops →
      getConversationLength st = appendedTurns ops) ∧
    (∀ st, getConversationLength (clearConversation st) = 0) := by
  refine ⟨fun st => rfl, ?_, fun st => rfl⟩
  intro ops st hst
  have h := length_foldl_applyOp ops initialHistory 0 rfl
  show st.conversation_history.length - 1 = appendedTurns ops
  rw [hst]
  show (ops.foldl applyOp initialHistory).length - 1 = appendedTurns ops
  rw [h, Nat.add_sub_cancel]
  rfl

/-- Witness for C8 at a concrete operation sequence of two appends. -/
theorem claim_C8_witness :
    getConversationLength
      { api_url := "http://localhost:11434/api/chat"
        model_name := "llama3.2"
        conversation_history :=
          runOps [SessionOp.appendUser "q", SessionOp.appendAssistant "a"]
        streaming_enabled := true }
      = appendedTurns [SessionOp.appendUser "q", SessionOp.appendAssistant "a"] ∧
    appendedTurns [SessionOp.appendUser "q", SessionOp.appendAssistant "a"] = 2 :=
  ⟨claim_C8.2.1 [SessionOp.appendUser "q", SessionOp.appendAssistant "a"] _ rfl, rfl⟩

/-- C9: setModel changes only the model name: the history, the
streaming flag and the api url are untouched. -/
theorem claim_C9 (st : AssistantState) (model : String) :
    (setModel st model).model_name = model ∧
    (setModel st model).conversation_history = st.conversation_history ∧
    (setModel st model).streaming_enabled = st.streaming_enabled ∧
    (setModel st model).api_url = st.api_url :=
  ⟨rfl, rfl, rfl, rfl⟩

/-- C4: the wire payload of a chat request is the object with exactly
the fields model, messages and stream, where messages serializes the
full ordered history in order, model is the configured model name and
stream the streaming flag; sendMessage builds it from the history with
the user message already appended. -/
theorem claim_C4 (history : List Message) (model : String) (streaming : Bool) :
    toWirePayload history model streaming
      = Json.obj [("model", Json.str model),
                  ("messages", Json.arr (history.map msgToJson)),
                  ("stream", Json.bool streaming)] ∧
    (toWirePayload history model streaming).getField "model" = some (Json.str model) ∧
    (toWirePayload history model streaming).getField "messages"
      = some (Json.arr (history.map msgToJson)) ∧
    (toWirePayload history model streaming).getField "stream"
      = some (Json.bool streaming) ∧
    (∀ st message, chatRequest st message
      = toWirePayload (st.conversation_history ++ [userMessage message])
          st.model_name st.streaming_enabled) :=
  ⟨rfl, rfl, rfl, rfl, fun st message => rfl⟩

/-- C2: the streaming decoder splits the body into newline-delimited
lines and concatenates, in line order, the per-line contributions: a
leading data prelude is stripped, empty and DONE lines are skipped,
every other line is parsed as an independent JSON object whose content
field under message, when present as a string, is appended; a line that
fails to parse is dropped without affecting the remaining lines, so
valid content after a malformed line is kept; sendMessage returns this
decoding when streaming is enabled; the decode of the concrete
two-chunk exchange from the specification is Hello. -/
theorem claim_C2 :
    (∀ body, decodeStreaming body = concatAll ((splitLines body).map lineContribution)) ∧
    (∀ ls1 ls2 bad, Json.parse (stripData bad) = none →
      decodeStreamLoop (ls1 ++ bad :: ls2) "" = decodeStreamLoop (ls1 ++ ls2) "") ∧
    (∀ st message body, st.streaming_enabled = true →
      (sendMessage st message (CurlOutcome.httpResponse 200 body)).1
        = Except.ok (decodeStreaming body)) ∧
    decodeStreaming
        "data: \x7b\"message\":\x7b\"content\":\"Hel\"\x7d\x7d\ndata: \x7b\"message\":\x7b\"content\":\"lo\"\x7d\x7d\n[DONE]"
      = "Hello" ∧
    decodeStreaming "bad json\n\x7b\"message\":\x7b\"content\":\"ok\"\x7d\x7d" = "ok" := by
  refine ⟨?_, ?_, ?_, by rfl, by rfl⟩
  · intro body
    exact (decodeStreamLoop_eq (splitLines body) "").trans (String.empty_append _)
  · intro ls1 ls2 bad hparse
    have hlc : lineContribution bad = "" := by
      simp only [lineContribution]
      by_cases h1 : stripData bad = "" ∨ stripData bad = "[DONE]"
      · rw [if_pos h1]
      · rw [if_neg h1, hparse]
    rw [decodeStreamLoop_eq, decodeStreamLoop_eq, List.map_append, List.map_append,
        List.map_cons, concatAll_append, concatAll_append, hlc]
    show "" ++ (concatAll (ls1.map lineContribution)
        ++ ("" ++ concatAll (ls2.map lineContribution)))
      = "" ++ (concatAll (ls1.map lineContribution) ++ concatAll (ls2.map lineContribution))
    rw [String.empty_append, String.empty_append, String.empty_append]
  · intro st message body hs
    simp [sendMessage, hs]

/-- Witness for C2: a malformed middle line does not lose the content
of the following valid line. -/
theorem claim_C2_witness :
    Json.parse (stripData "bad json") = none ∧
    decodeStreamLoop
        (["\x7b\"message\":\x7b\"content\":\"a\"\x7d\x7d"] ++ "bad json"
          :: ["\x7b\"message\":\x7b\"content\":\"b\"\x7d\x7d"]) ""
      = decodeStreamLoop
        (["\x7b\"message\":\x7b\"content\":\"a\"\x7d\x7d"]
          ++ ["\x7b\"message\":\x7b\"content\":\"b\"\x7d\x7d"]) "" :=
  ⟨rfl, claim_C2.2.1 ["\x7b\"message\":\x7b\"content\":\"a\"\x7d\x7d"]
      ["\x7b\"message\":\x7b\"content\":\"b\"\x7d\x7d"] "bad json" rfl⟩

/-- C5: with streaming disabled the whole body is parsed as one JSON
object; a string content field under message is returned verbatim as
the reply; a missing field yields the empty reply; a top-level parse
failure is a decode error rather than a reply, and sendMessage hands
back exactly this decoding for a 200 response. -/
theorem claim_C5 (body : String) :
    (Json.parse body = none → decodeNonStreaming body = Except.error ChatError.decodeError) ∧
    (∀ j s, Json.parse body = some j → contentField j = some (Json.str s) →
      decodeNonStreaming body = Except.ok s) ∧
    (∀ j, Json.parse body = some j → contentField j = none →
      decodeNonStreaming body = Except.ok "") ∧
    (∀ st message, st.streaming_enabled = false →
      (sendMessage st message (CurlOutcome.httpResponse 200 body)).1
        = decodeNonStreaming body) := by
  refine ⟨?_, ?_, ?_, ?_⟩
  · intro hp
    simp [decodeNonStreaming, hp]
  · intro j s hp hc
    simp [decodeNonStreaming, hp, hc]
  · intro j hp hc
    simp [decodeNonStreaming, hp, hc]
  · intro st message hs
    cases hd : decodeNonStreaming body with
    | error e => simp [sendMessage, hs, hd]
    | ok reply => simp [sendMessage, hs, hd]

/-- Witness for C5 at the concrete body from the specification. -/
theorem claim_C5_witness :
    decodeNonStreaming "\x7b\"message\":\x7b\"content\":\"Hi there\"\x7d\x7d"
      = Except.ok "Hi there" :=
  (claim_C5 "\x7b\"message\":\x7b\"content\":\"Hi there\"\x7d\x7d").2.1
    (Json.obj [("message", Json.obj [("content", Json.str "Hi there")])])
    "Hi there" rfl rfl

/-- C6: getAvailableModels returns, in array order, the name fields of
the entries of the models array, skipping entries without one; a body
that fails to parse, a curl failure, or a body without a models key all
degrade to the empty list instead of an error. -/
theorem claim_C6 :
    (∀ code body, Json.parse body = none →
      getAvailableModels (CurlOutcome.httpResponse code body) = []) ∧
    (∀ reason, getAvailableModels (CurlOutcome.curlError reason) = []) ∧
    (∀ code body j, Json.parse body = some j → j.getField "models" = none →
      getAvailableModels (CurlOutcome.httpResponse code body) = []) ∧
    (∀ code body j entries, Json.parse body = some j →
      j.getField "models" = some (Json.arr entries) →
      (∀ e ∈ entries, ∀ v, e.getField "name" = some v → ∃ s, v = Json.str s) →
      getAvailableModels (CurlOutcome.httpResponse code body)
        = entries.filterMap nameOfEntry) := by
  refine ⟨?_, fun reason => rfl, ?_, ?_⟩
  · intro code body hp
    simp [getAvailableModels, hp]
  · intro code body j hp hm
    simp [getAvailableModels, hp, hm]
  · intro code body j entries hp hm hstr
    simp only [getAvailableModels, hp, hm]
    show collectModelNames (Json.iterElems (Json.arr entries)) = entries.filterMap nameOfEntry
    exact collectModelNames_eq entries hstr

/-- Witness for C6 at the concrete bodies from the specification. -/
theorem claim_C6_witness :
    getAvailableModels (CurlOutcome.httpResponse 200
        "\x7b\"models\":[\x7b\"name\":\"llama3.2\"\x7d,\x7b\"name\":\"codellama\"\x7d]\x7d")
      = ["llama3.2", "codellama"] ∧
    getAvailableModels (CurlOutcome.httpResponse 200 "\x7b\x7d") = [] ∧
    getAvailableModels (CurlOutcome.httpResponse 200 "invalid json") = [] := by
  refine ⟨?_, ?_, ?_⟩
  · have h := claim_C6.2.2.2 200
      "\x7b\"models\":[\x7b\"name\":\"llama3.2\"\x7d,\x7b\"name\":\"codellama\"\x7d]\x7d"
      (Json.obj [("models", Json.arr
        [Json.obj [("name", Json.str "llama3.2")],
         Json.obj [("name", Json.str "codellama")]])])
      [Json.obj [("name", Json.str "llama3.2")],
       Json.obj [("name", Json.str "codellama")]]
      rfl rfl ?_
    · exact h
    · intro e he v hv
      rcases List.mem_cons.mp he with rfl | he2
      · refine ⟨"llama3.2", ?_⟩
        have h0 : Json.getField (Json.obj [("name", Json.str "llama3.2")]) "name"
            = some (Json.str "llama3.2") := rfl
        rw [h0] at hv
        exact (Option.some.inj hv).symm
      · rcases List.mem_cons.mp he2 with rfl | he3
        · refine ⟨"codellama", ?_⟩
          have h0 : Json.getField (Json.obj [("name", Json.str "codellama")]) "name"
              = some (Json.str "codellama") := rfl
          rw [h0] at hv
          exact (Option.some.inj hv).symm
        · simp at he3
  · exact claim_C6.2.2.1 200 "\x7b\x7d" (Json.obj []) rfl rfl
  · exact claim_C6.1 200 "invalid json" rfl

/-- C10: sendMessage pushes the user message before the exchange, so a
successful call grows the history by exactly the user turn followed by
the assistant turn, and a failing call, whether transport, api or
decode, grows it by exactly the retained user turn, which therefore
appears in the payload of any subsequent request. -/
theorem claim_C10 (st : AssistantState) (message : String) (net : CurlOutcome) :
    (∀ reply, (sendMessage st message net).1 = Except.ok reply →
      (sendMessage st message net).2.conversation_history
        = st.conversation_history ++ [userMessage message, assistantMessage reply]) ∧
    (∀ e, (sendMessage st message net).1 = Except.error e →
      (sendMessage st message net).2.conversation_history
        = st.conversation_history ++ [userMessage message]) := by
  cases net with
  | curlError reason =>
    constructor
    · intro reply h
      simp [sendMessage] at h
    · intro e h
      simp [sendMessage]
  | httpResponse code body =>
    by_cases hc : code ≠ 200
    · constructor
      · intro reply h
        simp [sendMessage, hc] at h
      · intro e h
        simp [sendMessage, hc]
    · by_cases hs : st.streaming_enabled
      · constructor
        · intro reply h
          simp only [sendMessage, hc, if_false, ite_not] at h ⊢
          simp only [hs, if_true, ite_true] at h ⊢
          simp at h
          subst h
          simp [List.append_assoc]
        · intro e h
          simp [sendMessage, hc, hs] at h
      · constructor
        · intro reply h
          cases hd : decodeNonStreaming body with
          | error e =>
            simp [sendMessage, hc, hs, hd] at h
          | ok r =>
            simp [sendMessage, hc, hs, hd] at h ⊢
            subst h
            simp [List.append_assoc]
        · intro e h
          cases hd : decodeNonStreaming body with
          | error e2 =>
            simp [sendMessage, hc, hs, hd]
          | ok r =>
            simp [sendMessage, hc, hs, hd] at h

/-- Witness for C10: a successful streaming exchange on a fresh session
appends the user and assistant turns. -/
theorem claim_C10_witness :
    (sendMessage (mkAssistant "llama3.2") "hi" (CurlOutcome.httpResponse 200 "")).2.conversation_history
      = initialHistory ++ [userMessage "hi", assistantMessage ""] :=
  (claim_C10 (mkAssistant "llama3.2") "hi" (CurlOutcome.httpResponse 200 "")).1 "" rfl

/-- C3 as stated is refuted: a 404 on the chat endpoint does raise the
api error with the status code and appends no assistant turn, but the
session is not unchanged: the user message pushed before the exchange
remains in the history. -/
theorem claim_C3_counterexample :
    (sendMessage (mkAssistant "llama3.2") "hi" (CurlOutcome.httpResponse 404 "not found")).1
      = Except.error (ChatError.apiError 404 "not found") ∧
    (sendMessage (mkAssistant "llama3.2") "hi" (CurlOutcome.httpResponse 404 "not found")).2
      ≠ mkAssistant "llama3.2" := by
  refine ⟨rfl, ?_⟩
  decide

/-- C3 amended: a non-200 status makes sendMessage throw an api error
carrying the status code and body, the interactive loop catches it and
continues, and no assistant turn is appended; the session is changed
only by the user turn pushed before the exchange, which remains. -/
theorem claim_C3 (st : AssistantState) (message body : String) (code : Int)
    (hcode : code ≠ 200) :
    (sendMessage st message (CurlOutcome.httpResponse code body)).1
      = Except.error (ChatError.apiError code body) ∧
    (sendMessage st message (CurlOutcome.httpResponse code body)).2.conversation_history
      = st.conversation_history ++ [userMessage message] ∧
    (chatTurnStep st message (CurlOutcome.httpResponse code body)).2 = true := by
  refine ⟨?_, ?_, ?_⟩
  · simp [sendMessage, hcode]
  · simp [sendMessage, hcode]
  · rfl

/-- Witness for C3 amended at status 404 on a fresh session. -/
theorem claim_C3_witness :
    (sendMessage (mkAssistant "llama3.2") "hello" (CurlOutcome.httpResponse 404 "nf")).1
      = Except.error (ChatError.apiError 404 "nf") ∧
    (sendMessage (mkAssistant "llama3.2") "hello" (CurlOutcome.httpResponse 404 "nf")).2.conversation_history
      = initialHistory ++ [userMessage "hello"] :=
  ⟨(claim_C3 (mkAssistant "llama3.2") "hello" "nf" 404 (by decide)).1,
   (claim_C3 (mkAssistant "llama3.2") "hello" "nf" 404 (by decide)).2.1⟩

end OllamaChat
